import Mathlib

/-!
Verification development for the pdf-loader repository (Go).

The Go sources are shallowly embedded: byte strings become `List Nat`
(each element a byte value 0..255), Go `float64` values become `ℚ`,
Go maps become association lists with Go lookup/insert semantics, and
fallible functions return `Option` or `Except String`.
-/

namespace PdfLoader

/-- PDF object variant, as used throughout the Go sources
(NullObject, BooleanObject, NumberObject, NameObject, StringObject,
HexStringObject, ArrayObject, DictionaryObject, StreamObject,
IndirectObject, KeywordObject). -/
inductive Obj : Type where
  | null : Obj
  | boolean : Bool → Obj
  | number : ℚ → Obj
  | name : String → Obj
  | str : List Nat → Obj
  | hexStr : List Nat → Obj
  | array : List Obj → Obj
  | dict : List (String × Obj) → Obj
  | stream : List (String × Obj) → List Nat → Obj
  | indirect : Int → Int → Obj
  | keyword : String → Obj

/-! ## Lexer (src/pkg/pdf/lexer.go) — hex-string reading -/

/-- isWhitespace from lexer.go. -/
def isWhitespace (b : Nat) : Bool :=
  b == 0x00 || b == 0x09 || b == 0x0A || b == 0x0C || b == 0x0D || b == 0x20

/-- Loop body of readHexString: read bytes until the closing angle bracket,
skipping whitespace, accumulating every other byte verbatim. -/
def readHexLoop : List Nat → List Nat → Option (Obj × List Nat)
  | [], _ => none
  | b :: rest, acc =>
    if b == 62 then some (Obj.hexStr acc, rest)
    else if isWhitespace b then readHexLoop rest acc
    else readHexLoop rest (acc ++ [b])

/-- readHexString from lexer.go: consume the opening angle bracket, then
collect raw bytes until the closing one (whitespace skipped). -/
def readHexString : List Nat → Option (Obj × List Nat)
  | [] => none
  | _ :: rest => readHexLoop rest []

/-- Hex encoding of a byte sequence (lowercase), as used in the round-trip
stated by the spec: hex(b). -/
def hexDigitChar (n : Nat) : Nat :=
  if n < 10 then 48 + n else 87 + n

def hexEncode (bs : List Nat) : List Nat :=
  bs.flatMap (fun b => [hexDigitChar (b / 16), hexDigitChar (b % 16)])

/-- C1: lexing the text made of an opening angle bracket, hexEncode(b) and a
closing angle bracket is claimed to return HexString(b) with the hex digit
pairs decoded into raw bytes.  The code does not decode: on the input with
b = [0x41] (text of four bytes 60,52,49,62) readHexString returns the two
ASCII digit bytes 52 and 49 unchanged, not the decoded byte 0x41. -/
theorem c1_readHexString_does_not_decode :
    readHexString [60, 52, 49, 62] = some (Obj.hexStr [52, 49], []) ∧
    Obj.hexStr [52, 49] ≠ Obj.hexStr [0x41] :=
  ⟨rfl, by simp⟩

/-- Every byte produced by hexEncode is a hex digit character: it is neither
the closing angle bracket nor PDF whitespace. -/
theorem hexDigitChar_not_terminator (m : Nat) :
    hexDigitChar m ≠ 62 ∧ isWhitespace (hexDigitChar m) = false := by
  have h48 : 48 ≤ hexDigitChar m ∧ hexDigitChar m ≠ 62 := by
    unfold hexDigitChar; split <;> omega
  refine ⟨h48.2, ?_⟩
  have := h48.1
  simp only [isWhitespace, Bool.or_eq_false_iff, beq_eq_false_iff_ne, ne_eq]
  omega

/-- General form: on every hex-encoded input the lexer returns the hex digit
characters themselves (whitespace-free case), never the decoded bytes. -/
theorem readHexString_returns_digits (b : List Nat) :
    readHexString (60 :: hexEncode b ++ [62]) =
      some (Obj.hexStr (hexEncode b), []) := by
  have h : ∀ ds acc, (∀ d ∈ ds, d ≠ 62 ∧ isWhitespace d = false) →
      readHexLoop (ds ++ [62]) acc = some (Obj.hexStr (acc ++ ds), []) := by
    intro ds
    induction ds with
    | nil => intro acc _; simp [readHexLoop]
    | cons d ds ih =>
      intro acc hd
      have h1 := hd d (by simp)
      rw [List.cons_append, readHexLoop]
      rw [if_neg (by simpa using h1.1), if_neg (by simp [h1.2])]
      rw [ih (acc ++ [d]) (fun x hx => hd x (by simp [hx]))]
      simp
  have hdigits : ∀ d ∈ hexEncode b, d ≠ 62 ∧ isWhitespace d = false := by
    intro d hd
    simp only [hexEncode, List.mem_flatMap] at hd
    obtain ⟨x, _, hx⟩ := hd
    have hor : d = hexDigitChar (x / 16) ∨ d = hexDigitChar (x % 16) := by
      simpa using hx
    rcases hor with h | h <;> rw [h] <;> exact hexDigitChar_not_terminator _
  simpa [readHexString] using h (hexEncode b) [] hdigits

/-! ## XRef resolver (src/pkg/pdf/xref.go) -/

/-- XRefEntry from xref.go (struct with zero values for unused fields). -/
structure XRefEntry where
  offset : Int
  generation : Int
  free : Bool
  compressed : Bool
  streamObj : Int
  streamIdx : Int
  deriving DecidableEq, Repr

/-- Association-list lookup over appended lists prefers the left list. -/
theorem lookup_append {α β : Type} [BEq α] (l1 l2 : List (α × β)) (a : α) :
    (l1 ++ l2).lookup a = ((l1.lookup a).or (l2.lookup a)) := by
  induction l1 with
  | nil => simp [List.lookup]
  | cons p l1 ih =>
    simp only [List.cons_append, List.lookup]
    cases a == p.1
    · simpa using ih
    · simp

/-- Insert an entry only when the id is not yet present: the guard used at
xref.go lines 186 and 348. -/
def insertIfAbsent (entries : List (Int × XRefEntry)) (id : Int) (e : XRefEntry) :
    List (Int × XRefEntry) :=
  match entries.lookup id with
  | some _ => entries
  | none => entries ++ [(id, e)]

/-- A 20-byte line of a classical xref subsection gives an entry
(Offset, Generation, Free when the flag byte is the letter f). -/
def stdRowEntry (offset gen : Int) (flag : Nat) : XRefEntry :=
  ⟨offset, gen, flag == 102, false, 0, 0⟩

/-- Row action of readStandardXRef: record id when absent. -/
def applyStdRow (entries : List (Int × XRefEntry))
    (row : Int × Int × Int × Nat) : List (Int × XRefEntry) :=
  insertIfAbsent entries row.1 (stdRowEntry row.2.1 row.2.2.1 row.2.2.2)

/-- Big-endian accumulation of bytes, as in readField: shifting left by 8 and
or-ing in a byte equals multiplying by 256 and adding for byte values. -/
def beInt (bs : List Nat) : Int :=
  bs.foldl (fun res b => res * 256 + (b : Int)) 0

/-- readField from xref.go: a zero width consumes nothing and yields 0;
otherwise width bytes are consumed big-endian. -/
def readField (bs : List Nat) (width : Nat) : Int × List Nat :=
  if width = 0 then (0, bs)
  else (beInt (bs.take width), bs.drop width)

/-- The switch in readXRefStream mapping the type field f1 to an entry:
1 is InUse(offset f2, gen f3), 2 is Compressed(container f2, index f3),
0 is Free(gen f3); any other value records nothing. -/
def streamRowEntry (f1 f2 f3 : Int) : Option XRefEntry :=
  if f1 = 1 then some ⟨f2, f3, false, false, 0, 0⟩
  else if f1 = 2 then some ⟨0, 0, false, true, f2, f3⟩
  else if f1 = 0 then some ⟨0, f3, true, false, 0, 0⟩
  else none

/-- Row action of readXRefStream: record id when absent, per the f1 switch. -/
def applyStreamRow (entries : List (Int × XRefEntry)) (id : Int)
    (r : Int × Int × Int) : List (Int × XRefEntry) :=
  match entries.lookup id with
  | some _ => entries
  | none =>
    match streamRowEntry r.1 r.2.1 r.2.2 with
    | some e => entries ++ [(id, e)]
    | none => entries

/-- The inner row loop of readXRefStream for one Index pair: read count rows
of three fields each from the decoded bytes, recording ids start, start+1, … -/
def readStreamRows (w0 w1 w2 : Nat) :
    Nat → Int → List (Int × XRefEntry) → List Nat →
    List (Int × XRefEntry) × List Nat
  | 0, _, entries, bs => (entries, bs)
  | Nat.succ k, id, entries, bs =>
    let p1 := readField bs w0
    let p2 := readField p1.2 w1
    let p3 := readField p2.2 w2
    readStreamRows w0 w1 w2 k (id + 1)
      (applyStreamRow entries id (p1.1, p2.1, p3.1)) p3.2

/-- C3 counterexample: parsing one xref-stream row with widths 0,1,1 from the
bytes 5,0 (so f2 = 5, f3 = 0).  The absent type field reads as 0, and the row
is recorded as a Free entry with generation 0 — not as the InUse entry with
offset 5 and generation 0 that the claim predicts. -/
theorem c3_counterexample :
    (readStreamRows 0 1 1 1 0 [] [5, 0]).1 =
      [(0, (⟨0, 0, true, false, 0, 0⟩ : XRefEntry))] ∧
    (⟨0, 0, true, false, 0, 0⟩ : XRefEntry) ≠ ⟨5, 0, false, false, 0, 0⟩ := by
  constructor
  · rfl
  · decide

/-- Lookup after one stream-row action: either the binding was already there,
or it is the entry the f1 switch produced for this row. -/
theorem lookup_applyStreamRow {entries : List (Int × XRefEntry)} {id : Int}
    {r : Int × Int × Int} {idq : Int} {v : XRefEntry}
    (h : List.lookup idq (applyStreamRow entries id r) = some v) :
    List.lookup idq entries = some v ∨ streamRowEntry r.1 r.2.1 r.2.2 = some v := by
  unfold applyStreamRow at h
  rcases hcase : entries.lookup id with _ | e0
  · rw [hcase] at h
    rcases hrow : streamRowEntry r.1 r.2.1 r.2.2 with _ | e
    · rw [hrow] at h
      exact Or.inl h
    · rw [hrow] at h
      rw [lookup_append] at h
      rcases horig : List.lookup idq entries with _ | v0
      · rw [horig] at h
        right
        simp only [Option.or] at h
        simp only [List.lookup] at h
        cases hid : (idq == id)
        · rw [hid] at h
          exact absurd h (by simp)
        · rw [hid] at h
          simp only [Option.some.injEq] at h
          rw [h]
      · rw [horig] at h
        left
        simp only [Option.or] at h
        exact h
  · rw [hcase] at h
    exact Or.inl h

/-- C3 amended: with w0 = 0 the type field of every row defaults to 0, so each
row whose id is new is recorded as a Free entry with generation f3 (the offset
field f2 is discarded); consequently every entry present after such a parse is
either a previously recorded entry or a Free one. -/
theorem c3_w0_zero_defaults_to_free :
    (∀ bs, readField bs 0 = (0, bs)) ∧
    (∀ entries id f2 f3, entries.lookup id = none →
        applyStreamRow entries id (0, f2, f3) =
          entries ++ [(id, (⟨0, f3, true, false, 0, 0⟩ : XRefEntry))]) ∧
    (∀ w1 w2 count id entries bs idq v,
        ((readStreamRows 0 w1 w2 count id entries bs).1.lookup idq = some v) →
        entries.lookup idq = some v ∨ v.free = true) := by
  refine ⟨fun bs => rfl, fun entries id f2 f3 h => ?_, ?_⟩
  · simp [applyStreamRow, h, streamRowEntry]
  · intro w1 w2 count
    induction count with
    | zero => intro id entries bs idq v h; exact Or.inl h
    | succ k ih =>
      intro id entries bs idq v h
      rw [readStreamRows] at h
      rw [show readField bs 0 = (0, bs) from rfl] at h
      have step := ih (id + 1) _ _ idq v h
      rcases step with hlook | hfree
      · rcases lookup_applyStreamRow hlook with horig | hnew
        · exact Or.inl horig
        · right
          simp only [streamRowEntry] at hnew
          norm_num at hnew
          rw [← hnew]
      · exact Or.inr hfree

/-- C3 amended witness: the general theorem applied to the concrete one-row
parse of the counterexample. -/
theorem c3_w0_zero_defaults_to_free_witness :
    ((readStreamRows 0 1 1 1 0 [] [5, 0]).1.lookup 0 =
        some (⟨0, 0, true, false, 0, 0⟩ : XRefEntry)) ∧
    (([] : List (Int × XRefEntry)).lookup 0 =
        some (⟨0, 0, true, false, 0, 0⟩ : XRefEntry) ∨
      (⟨0, 0, true, false, 0, 0⟩ : XRefEntry).free = true) := by
  refine ⟨by rfl, ?_⟩
  exact c3_w0_zero_defaults_to_free.2.2 1 1 1 0 [] [5, 0] 0 _ (by rfl)

/-- The accumulated xref state built by ParseXRef: the entry directory plus
the merged trailer dictionary. -/
structure XRefTable where
  entries : List (Int × XRefEntry)
  trailer : List (String × Obj)

/-- One parsed section of the /Prev chain: a classical table (its rows with
ids already laid out as start+i) or an xref stream (widths, index pairs and
decoded row bytes), each together with its trailer dictionary. -/
inductive XRefSection where
  | standard (rows : List (Int × Int × Int × Nat)) (tr : List (String × Obj))
  | strm (w0 w1 w2 : Nat) (pairs : List (Int × Nat)) (data : List Nat)
      (tr : List (String × Obj))

/-- Outer row loop of readXRefStream over the /Index pairs. -/
def readStreamSections (w0 w1 w2 : Nat) (pairs : List (Int × Nat))
    (entries : List (Int × XRefEntry)) (bs : List Nat) :
    List (Int × XRefEntry) × List Nat :=
  pairs.foldl (fun st p => readStreamRows w0 w1 w2 p.2 p.1 st.1 st.2)
    (entries, bs)

/-- Trailer merge of ParseXRef lines 83-88: keys already present are kept. -/
def mergeTrailer (acc tr : List (String × Obj)) : List (String × Obj) :=
  tr.foldl (fun acc kv =>
    match acc.lookup kv.1 with
    | some _ => acc
    | none => acc ++ [kv]) acc

/-- Process one section of the chain: record its rows (first-wins) and merge
its trailer (first-wins). -/
def applySection (t : XRefTable) (s : XRefSection) : XRefTable :=
  match s with
  | .standard rows tr =>
      { entries := rows.foldl applyStdRow t.entries,
        trailer := mergeTrailer t.trailer tr }
  | .strm w0 w1 w2 pairs data tr =>
      { entries := (readStreamSections w0 w1 w2 pairs t.entries data).1,
        trailer := mergeTrailer t.trailer tr }

/-- The whole build: sections processed newest first along the /Prev chain. -/
def buildXRef (t : XRefTable) (sections : List XRefSection) : XRefTable :=
  sections.foldl applySection t

/-- insertIfAbsent never disturbs an existing binding. -/
theorem lookup_insertIfAbsent {entries : List (Int × XRefEntry)} {idq : Int}
    {v : XRefEntry} (id : Int) (e : XRefEntry)
    (h : entries.lookup idq = some v) :
    (insertIfAbsent entries id e).lookup idq = some v := by
  unfold insertIfAbsent
  rcases hcase : entries.lookup id with _ | e0
  · rw [lookup_append, h]
    rfl
  · exact h

/-- applyStreamRow never disturbs an existing binding. -/
theorem applyStreamRow_preserves {entries : List (Int × XRefEntry)} {idq : Int}
    {v : XRefEntry} (id : Int) (r : Int × Int × Int)
    (h : entries.lookup idq = some v) :
    (applyStreamRow entries id r).lookup idq = some v := by
  unfold applyStreamRow
  rcases hcase : entries.lookup id with _ | e0
  · rcases streamRowEntry r.1 r.2.1 r.2.2 with _ | e
    · exact h
    · rw [lookup_append, h]
      rfl
  · exact h

/-- readStreamRows never disturbs an existing binding. -/
theorem readStreamRows_preserves (w0 w1 w2 : Nat) :
    ∀ (count : Nat) (id : Int) (entries : List (Int × XRefEntry)) (bs : List Nat)
      {idq : Int} {v : XRefEntry}, entries.lookup idq = some v →
      (readStreamRows w0 w1 w2 count id entries bs).1.lookup idq = some v := by
  intro count
  induction count with
  | zero => intro id entries bs idq v h; exact h
  | succ k ih =>
    intro id entries bs idq v h
    rw [readStreamRows]
    exact ih _ _ _ (applyStreamRow_preserves _ _ h)

/-- readStreamSections never disturbs an existing binding. -/
theorem readStreamSections_preserves (w0 w1 w2 : Nat) (pairs : List (Int × Nat)) :
    ∀ (entries : List (Int × XRefEntry)) (bs : List Nat) {idq : Int}
      {v : XRefEntry}, entries.lookup idq = some v →
      (readStreamSections w0 w1 w2 pairs entries bs).1.lookup idq = some v := by
  induction pairs with
  | nil => intro entries bs idq v h; exact h
  | cons p ps ih =>
    intro entries bs idq v h
    have hstep := readStreamRows_preserves w0 w1 w2 p.2 p.1 entries bs h
    unfold readStreamSections at ih ⊢
    rw [List.foldl_cons]
    exact ih _ _ hstep

/-- The fold over classical rows never disturbs an existing binding. -/
theorem stdRows_preserve (rows : List (Int × Int × Int × Nat)) :
    ∀ (entries : List (Int × XRefEntry)) {idq : Int} {v : XRefEntry},
      entries.lookup idq = some v →
      (rows.foldl applyStdRow entries).lookup idq = some v := by
  induction rows with
  | nil => intro entries idq v h; exact h
  | cons r rs ih =>
    intro entries idq v h
    rw [List.foldl_cons]
    exact ih _ (lookup_insertIfAbsent _ _ h)

/-- mergeTrailer never disturbs an existing key. -/
theorem mergeTrailer_preserves (tr : List (String × Obj)) :
    ∀ (acc : List (String × Obj)) {k : String} {v : Obj},
      acc.lookup k = some v → (mergeTrailer acc tr).lookup k = some v := by
  induction tr with
  | nil => intro acc k v h; exact h
  | cons kv rest ih =>
    intro acc k v h
    unfold mergeTrailer at ih ⊢
    rw [List.foldl_cons]
    rcases hcase : acc.lookup kv.1 with _ | v0
    · exact ih (acc ++ [kv]) (by rw [lookup_append, h]; rfl)
    · exact ih acc h

/-- C6: once an object id has an entry, or a trailer key is present, walking
further sections of the /Prev chain never overwrites it: the first recorded
value survives the whole build. -/
theorem c6_oldest_wins_merge (t : XRefTable) (sections : List XRefSection) :
    (∀ id v, t.entries.lookup id = some v →
        (buildXRef t sections).entries.lookup id = some v) ∧
    (∀ k v, t.trailer.lookup k = some v →
        (buildXRef t sections).trailer.lookup k = some v) := by
  induction sections generalizing t with
  | nil => exact ⟨fun id v h => h, fun k v h => h⟩
  | cons s rest ih =>
    constructor
    · intro id v h
      have hstep : (applySection t s).entries.lookup id = some v := by
        rcases s with ⟨rows, tr⟩ | ⟨w0, w1, w2, pairs, data, tr⟩
        · exact stdRows_preserve rows t.entries h
        · exact readStreamSections_preserves w0 w1 w2 pairs t.entries data h
      exact (ih (applySection t s)).1 id v hstep
    · intro k v h
      have hstep : (applySection t s).trailer.lookup k = some v := by
        rcases s with ⟨rows, tr⟩ | ⟨w0, w1, w2, pairs, data, tr⟩
        · exact mergeTrailer_preserves tr t.trailer h
        · exact mergeTrailer_preserves tr t.trailer h
      exact (ih (applySection t s)).2 k v hstep

/-- C6 witness: a table that already has an entry for id 1 and a /Size key is
unchanged on those after a further standard section that redefines both. -/
theorem c6_oldest_wins_merge_witness :
    ((XRefTable.mk [(1, stdRowEntry 10 0 110)] [("/Size", Obj.number 3)]).entries.lookup 1 =
        some (stdRowEntry 10 0 110)) ∧
    ((buildXRef (XRefTable.mk [(1, stdRowEntry 10 0 110)] [("/Size", Obj.number 3)])
        [XRefSection.standard [(1, 99, 5, 110)] [("/Size", Obj.number 9)]]).entries.lookup 1 =
        some (stdRowEntry 10 0 110)) ∧
    ((buildXRef (XRefTable.mk [(1, stdRowEntry 10 0 110)] [("/Size", Obj.number 3)])
        [XRefSection.standard [(1, 99, 5, 110)] [("/Size", Obj.number 9)]]).trailer.lookup "/Size" =
        some (Obj.number 3)) := by
  refine ⟨rfl, ?_, ?_⟩
  · exact (c6_oldest_wins_merge _ _).1 1 _ rfl
  · exact (c6_oldest_wins_merge _ _).2 "/Size" _ rfl

/-! ## Termination of the /Prev chain walk (C7) -/

/-- Outcome of the ParseXRef offset loop: the chain ended (offset 0 or an
already visited offset), or a section read failed and ParseXRef returns the
error.  Both are termination. -/
inductive XRefExit where
  | finished (visited : List Int)
  | failed (visited : List Int)

/-- The offset loop of ParseXRef lines 43-89, with the visited-offset guard.
step models one iteration body (seek, parse section, yield the next /Prev
offset, or fail).  fuel bounds iterations; none means fuel ran out before the
loop exited. -/
def parseXRefLoop (step : Int → Option Int) :
    Nat → List Int → Int → Option XRefExit
  | 0, _, _ => none
  | Nat.succ k, visited, offset =>
    if offset = 0 then some (.finished visited)
    else if visited.contains offset then some (.finished visited)
    else
      match step offset with
      | none => some (.failed (offset :: visited))
      | some prev => parseXRefLoop step k (offset :: visited) prev

/-- A duplicate-free list of integers inside 0..size has at most size+1
elements. -/
theorem nodup_bounded_length {size : Nat} {l : List Int} (hnd : l.Nodup)
    (hb : ∀ x ∈ l, 0 ≤ x ∧ x ≤ (size : Int)) : l.length ≤ size + 1 := by
  classical
  have hsub : l.toFinset ⊆ Finset.Icc (0 : Int) size := by
    intro x hx
    rw [List.mem_toFinset] at hx
    exact Finset.mem_Icc.mpr (hb x hx)
  have hcard := Finset.card_le_card hsub
  rw [List.toFinset_card_of_nodup hnd, Int.card_Icc] at hcard
  omega

/-- Fuel of size+2 minus the number of already visited offsets always ends
the loop: every iteration either exits or consumes a fresh in-range offset,
and there are only size+1 of those. -/
theorem parseXRefLoop_terminates (step : Int → Option Int) (size : Nat)
    (hstep : ∀ off : Int, ¬(0 ≤ off ∧ off ≤ (size : Int)) → step off = none) :
    ∀ (fuel : Nat) (visited : List Int) (offset : Int), visited.Nodup →
      (∀ x ∈ visited, 0 ≤ x ∧ x ≤ (size : Int)) →
      size + 2 - visited.length ≤ fuel →
      parseXRefLoop step fuel visited offset ≠ none := by
  intro fuel
  induction fuel with
  | zero =>
    intro visited offset hnd hb hf
    have := nodup_bounded_length hnd hb
    omega
  | succ k ih =>
    intro visited offset hnd hb hf
    rw [parseXRefLoop]
    by_cases h0 : offset = 0
    · simp [h0]
    rw [if_neg h0]
    by_cases hv : visited.contains offset = true
    · rw [if_pos hv]
      simp
    rw [if_neg hv]
    rcases hso : step offset with _ | prev
    · simp
    have hrange : 0 ≤ offset ∧ offset ≤ (size : Int) := by
      by_contra hc
      rw [hstep offset hc] at hso
      exact Option.noConfusion hso
    have hmem : offset ∉ visited := by
      intro hmem
      exact hv (List.elem_eq_true_of_mem hmem)
    exact ih (offset :: visited) prev (List.nodup_cons.mpr ⟨hmem, hnd⟩)
      (by
        intro x hx
        rcases List.mem_cons.mp hx with h | h
        · exact h ▸ hrange
        · exact hb x h)
      (by simp only [List.length_cons]; omega)

/-- C7: the /Prev walk of ParseXRef terminates on every input.  Reads at
offsets outside the file fail (so the loop exits), the loop stops at offset 0,
and an already visited offset ends the walk at once, so a /Prev cycle is
walked at most once per distinct offset. -/
theorem c7_parseXRef_terminates (step : Int → Option Int) (size : Nat)
    (hstep : ∀ off : Int, ¬(0 ≤ off ∧ off ≤ (size : Int)) → step off = none)
    (start : Int) :
    parseXRefLoop step (size + 2) [] start ≠ none ∧
    (∀ (fuel : Nat) (visited : List Int) (off : Int), off ≠ 0 →
        visited.contains off = true →
        parseXRefLoop step (fuel + 1) visited off = some (.finished visited)) := by
  constructor
  · exact parseXRefLoop_terminates step size hstep (size + 2) [] start
      List.nodup_nil (by simp) (by omega)
  · intro fuel visited off hne hcont
    rw [parseXRefLoop, if_neg hne, if_pos hcont]

/-- C7 witness: a one-offset /Prev cycle (the section at offset 7 points back
to offset 7 in a file of size 10) terminates, and the visited guard ends the
walk immediately on a revisited offset. -/
theorem c7_parseXRef_terminates_witness :
    parseXRefLoop (fun off => if off = 7 then some 7 else none) 12 [] 7 ≠ none ∧
    parseXRefLoop (fun off => if off = 7 then some 7 else none) 4 [7] 7 =
      some (.finished [7]) := by
  have hstep : ∀ off : Int, ¬(0 ≤ off ∧ off ≤ ((10 : Nat) : Int)) →
      (fun off => if off = (7 : Int) then some (7 : Int) else none) off = none := by
    intro off h
    have : off ≠ 7 := by
      intro h7
      exact h (by rw [h7]; constructor <;> omega)
    simp [this]
  have h := c7_parseXRef_terminates (fun off => if off = 7 then some 7 else none)
    10 hstep 7
  exact ⟨h.1, h.2 3 [7] 7 (by omega) (by decide)⟩

/-! ## Encryption handler (crypt source file): MD5, per-object keys, RC4,
AES-128-CBC.  The Go code calls the standard-library crypto primitives; those
primitives are embedded here in full (RFC 1321 MD5, RC4, FIPS-197 AES). -/

/-- Reduce to a 32-bit word. -/
def w32 (n : Nat) : Nat := n % 4294967296

/-- Rotate a 32-bit word left by s bits. -/
def rotl32 (x s : Nat) : Nat := (x * 2 ^ s + x / 2 ^ (32 - s)) % 4294967296

/-- Bitwise complement of a 32-bit word. -/
def not32 (x : Nat) : Nat := Nat.xor x 4294967295

/-- MD5 sine-derived round constants. -/
def md5K : List Nat := [
  0xd76aa478, 0xe8c7b756, 0x242070db, 0xc1bdceee, 0xf57c0faf, 0x4787c62a, 0xa8304613, 0xfd469501,
  0x698098d8, 0x8b44f7af, 0xffff5bb1, 0x895cd7be, 0x6b901122, 0xfd987193, 0xa679438e, 0x49b40821,
  0xf61e2562, 0xc040b340, 0x265e5a51, 0xe9b6c7aa, 0xd62f105d, 0x02441453, 0xd8a1e681, 0xe7d3fbc8,
  0x21e1cde6, 0xc33707d6, 0xf4d50d87, 0x455a14ed, 0xa9e3e905, 0xfcefa3f8, 0x676f02d9, 0x8d2a4c8a,
  0xfffa3942, 0x8771f681, 0x6d9d6122, 0xfde5380c, 0xa4beea44, 0x4bdecfa9, 0xf6bb4b60, 0xbebfbc70,
  0x289b7ec6, 0xeaa127fa, 0xd4ef3085, 0x04881d05, 0xd9d4d039, 0xe6db99e5, 0x1fa27cf8, 0xc4ac5665,
  0xf4292244, 0x432aff97, 0xab9423a7, 0xfc93a039, 0x655b59c3, 0x8f0ccc92, 0xffeff47d, 0x85845dd1,
  0x6fa87e4f, 0xfe2ce6e0, 0xa3014314, 0x4e0811a1, 0xf7537e82, 0xbd3af235, 0x2ad7d2bb, 0xeb86d391]

/-- MD5 per-round left-rotation amounts. -/
def md5S : List Nat := [
  7, 12, 17, 22, 7, 12, 17, 22, 7, 12, 17, 22, 7, 12, 17, 22,
  5, 9, 14, 20, 5, 9, 14, 20, 5, 9, 14, 20, 5, 9, 14, 20,
  4, 11, 16, 23, 4, 11, 16, 23, 4, 11, 16, 23, 4, 11, 16, 23,
  6, 10, 15, 21, 6, 10, 15, 21, 6, 10, 15, 21, 6, 10, 15, 21]

/-- Group bytes into 32-bit little-endian words. -/
def leWords : List Nat → List Nat
  | b0 :: b1 :: b2 :: b3 :: rest =>
    (b0 + 256 * b1 + 65536 * b2 + 16777216 * b3) :: leWords rest
  | _ => []

/-- One MD5 round applied to the state for round index i of block m. -/
def md5Round (m : List Nat) (st : Nat × Nat × Nat × Nat) (i : Nat) :
    Nat × Nat × Nat × Nat :=
  let a := st.1
  let b := st.2.1
  let c := st.2.2.1
  let d := st.2.2.2
  let f :=
    if i < 16 then Nat.lor (Nat.land b c) (Nat.land (not32 b) d)
    else if i < 32 then Nat.lor (Nat.land d b) (Nat.land (not32 d) c)
    else if i < 48 then Nat.xor b (Nat.xor c d)
    else Nat.xor c (Nat.lor b (not32 d))
  let g :=
    if i < 16 then i
    else if i < 32 then (5 * i + 1) % 16
    else if i < 48 then (3 * i + 5) % 16
    else (7 * i) % 16
  let x := w32 (f + a + md5K.getD i 0 + m.getD g 0)
  (d, w32 (b + rotl32 x (md5S.getD i 0)), b, c)

/-- Process one 64-byte block. -/
def md5Block (block : List Nat) (st : Nat × Nat × Nat × Nat) :
    Nat × Nat × Nat × Nat :=
  let m := leWords block
  let r := (List.range 64).foldl (md5Round m) st
  (w32 (st.1 + r.1), w32 (st.2.1 + r.2.1),
    w32 (st.2.2.1 + r.2.2.1), w32 (st.2.2.2 + r.2.2.2))

/-- Process all 64-byte blocks of a padded message. -/
def md5Chunks (bs : List Nat) (st : Nat × Nat × Nat × Nat) :
    Nat × Nat × Nat × Nat :=
  if h : bs.length < 64 then st
  else md5Chunks (bs.drop 64) (md5Block (bs.take 64) st)
termination_by bs.length
decreasing_by simp only [List.length_drop]; omega

/-- MD5 message padding: a 0x80 byte, zeros to 56 mod 64, then the bit length
as 8 little-endian bytes. -/
def md5Pad (msg : List Nat) : List Nat :=
  let len := msg.length
  let zeros := (119 - len % 64) % 64
  msg ++ [0x80] ++ List.replicate zeros 0 ++
    (List.range 8).map (fun k => (len * 8) / 256 ^ k % 256)

/-- Serialize a 32-bit word to 4 little-endian bytes. -/
def leBytes (w : Nat) : List Nat :=
  [w % 256, w / 256 % 256, w / 65536 % 256, w / 16777216 % 256]

/-- The MD5 digest (16 bytes) of a byte sequence. -/
def md5 (msg : List Nat) : List Nat :=
  let st := md5Chunks (md5Pad msg) (0x67452301, 0xefcdab89, 0x98badcfe, 0x10325476)
  leBytes st.1 ++ leBytes st.2.1 ++ leBytes st.2.2.1 ++ leBytes st.2.2.2

/-- An MD5 digest always has 16 bytes. -/
theorem md5_length (msg : List Nat) : (md5 msg).length = 16 := by
  unfold md5
  simp [leBytes]

/-- EncryptDict fields from the crypt source file. -/
structure EncryptDict where
  filter : String
  v : Int
  r : Int
  o : List Nat
  u : List Nat
  p : Int
  length : Int
  encryptMetadata : Bool

/-- EncryptionHandler fields from the crypt source file. -/
structure EncryptionHandler where
  dict : EncryptDict
  fileID : List Nat
  encryptKey : List Nat
  v : Int
  r : Int

/-- The low byte of a Go int after an arithmetic right shift by 8k bits:
shifting is floor division by 2 to the 8k, byte conversion keeps the value
modulo 256. -/
def goByte (x : Int) (k : Nat) : Nat := ((Int.fdiv x (2 ^ (8 * k))) % 256).toNat

/-- computeObjectKey from the crypt source: file key, then the object number
as 3 little-endian bytes and the generation as 2, then the ASCII salt bytes
when V is at least 4; MD5 of that, truncated to min(keyLen+5, 16) bytes. -/
def computeObjectKey (h : EncryptionHandler) (objNum genNum : Int) : List Nat :=
  let keyLen := h.encryptKey.length
  let key := h.encryptKey ++
    [goByte objNum 0, goByte objNum 1, goByte objNum 2,
      goByte genNum 0, goByte genNum 1]
  let key := if h.v ≥ 4 then key ++ [0x73, 0x41, 0x6C, 0x54] else key
  let hash := md5 key
  hash.take (min (keyLen + 5) 16)

/-- The MD5 input of Algorithm 1 exactly as the spec words it: file key,
obj_num as 3 bytes little-endian, gen as 2 bytes little-endian, and the four
ASCII bytes of sAlT appended exactly when V is at least 4. -/
def specObjectKeyInput (h : EncryptionHandler) (objNum genNum : Int) : List Nat :=
  h.encryptKey ++
    [goByte objNum 0, goByte objNum 1, goByte objNum 2,
      goByte genNum 0, goByte genNum 1] ++
    (if h.v ≥ 4 then [0x73, 0x41, 0x6C, 0x54] else [])

/-- C4: for every object number and generation, computeObjectKey returns the
first min(keyLen+5, 16) bytes of the MD5 digest of the spec-described input,
and the returned key length equals min(file_key_len + 5, 16). -/
theorem c4_computeObjectKey (h : EncryptionHandler) (objNum genNum : Int) :
    computeObjectKey h objNum genNum =
      (md5 (specObjectKeyInput h objNum genNum)).take
        (min (h.encryptKey.length + 5) 16) ∧
    (computeObjectKey h objNum genNum).length =
      min (h.encryptKey.length + 5) 16 := by
  have hinput : (if h.v ≥ 4 then
      (h.encryptKey ++
        [goByte objNum 0, goByte objNum 1, goByte objNum 2,
          goByte genNum 0, goByte genNum 1]) ++ [0x73, 0x41, 0x6C, 0x54]
      else h.encryptKey ++
        [goByte objNum 0, goByte objNum 1, goByte objNum 2,
          goByte genNum 0, goByte genNum 1]) =
      specObjectKeyInput h objNum genNum := by
    unfold specObjectKeyInput
    split <;> simp
  constructor
  · simp only [computeObjectKey]
    rw [hinput]
  · simp only [computeObjectKey]
    rw [hinput]
    rw [List.length_take, md5_length]
    omega

/-- RC4 key scheduling: 256 swap steps over the identity permutation. -/
def rc4Init (key : List Nat) : List Nat :=
  ((List.range 256).foldl (fun (p : List Nat × Nat) i =>
    let s := p.1
    let j := (p.2 + s.getD i 0 + key.getD (i % key.length) 0) % 256
    let si := s.getD i 0
    let sj := s.getD j 0
    ((s.set i sj).set j si, j)) (List.range 256, 0)).1

/-- RC4 keystream generation xor-ed onto the data. -/
def rc4Prga (s : List Nat) (i j : Nat) : List Nat → List Nat
  | [] => []
  | b :: rest =>
    let i2 := (i + 1) % 256
    let j2 := (j + s.getD i2 0) % 256
    let si := s.getD i2 0
    let sj := s.getD j2 0
    let s2 := (s.set i2 sj).set j2 si
    let k := s2.getD ((si + sj) % 256) 0
    Nat.xor b k :: rc4Prga s2 i2 j2 rest

/-- decryptRC4 from the crypt source: empty data passes through, otherwise
RC4 with the per-object key (the library rejects keys shorter than 1 or
longer than 256 bytes). -/
def decryptRC4 (h : EncryptionHandler) (data : List Nat) (objNum genNum : Int) :
    Except String (List Nat) :=
  if data = [] then .ok data
  else
    let key := computeObjectKey h objNum genNum
    if key.length < 1 ∨ key.length > 256 then .error "failed to create RC4 cipher"
    else .ok (rc4Prga (rc4Init key) 0 0 data)

/-- The AES S-box (FIPS-197). -/
def aesSbox : List Nat := [
  0x63, 0x7c, 0x77, 0x7b, 0xf2, 0x6b, 0x6f, 0xc5, 0x30, 0x01, 0x67, 0x2b, 0xfe, 0xd7, 0xab, 0x76,
  0xca, 0x82, 0xc9, 0x7d, 0xfa, 0x59, 0x47, 0xf0, 0xad, 0xd4, 0xa2, 0xaf, 0x9c, 0xa4, 0x72, 0xc0,
  0xb7, 0xfd, 0x93, 0x26, 0x36, 0x3f, 0xf7, 0xcc, 0x34, 0xa5, 0xe5, 0xf1, 0x71, 0xd8, 0x31, 0x15,
  0x04, 0xc7, 0x23, 0xc3, 0x18, 0x96, 0x05, 0x9a, 0x07, 0x12, 0x80, 0xe2, 0xeb, 0x27, 0xb2, 0x75,
  0x09, 0x83, 0x2c, 0x1a, 0x1b, 0x6e, 0x5a, 0xa0, 0x52, 0x3b, 0xd6, 0xb3, 0x29, 0xe3, 0x2f, 0x84,
  0x53, 0xd1, 0x00, 0xed, 0x20, 0xfc, 0xb1, 0x5b, 0x6a, 0xcb, 0xbe, 0x39, 0x4a, 0x4c, 0x58, 0xcf,
  0xd0, 0xef, 0xaa, 0xfb, 0x43, 0x4d, 0x33, 0x85, 0x45, 0xf9, 0x02, 0x7f, 0x50, 0x3c, 0x9f, 0xa8,
  0x51, 0xa3, 0x40, 0x8f, 0x92, 0x9d, 0x38, 0xf5, 0xbc, 0xb6, 0xda, 0x21, 0x10, 0xff, 0xf3, 0xd2,
  0xcd, 0x0c, 0x13, 0xec, 0x5f, 0x97, 0x44, 0x17, 0xc4, 0xa7, 0x7e, 0x3d, 0x64, 0x5d, 0x19, 0x73,
  0x60, 0x81, 0x4f, 0xdc, 0x22, 0x2a, 0x90, 0x88, 0x46, 0xee, 0xb8, 0x14, 0xde, 0x5e, 0x0b, 0xdb,
  0xe0, 0x32, 0x3a, 0x0a, 0x49, 0x06, 0x24, 0x5c, 0xc2, 0xd3, 0xac, 0x62, 0x91, 0x95, 0xe4, 0x79,
  0xe7, 0xc8, 0x37, 0x6d, 0x8d, 0xd5, 0x4e, 0xa9, 0x6c, 0x56, 0xf4, 0xea, 0x65, 0x7a, 0xae, 0x08,
  0xba, 0x78, 0x25, 0x2e, 0x1c, 0xa6, 0xb4, 0xc6, 0xe8, 0xdd, 0x74, 0x1f, 0x4b, 0xbd, 0x8b, 0x8a,
  0x70, 0x3e, 0xb5, 0x66, 0x48, 0x03, 0xf6, 0x0e, 0x61, 0x35, 0x57, 0xb9, 0x86, 0xc1, 0x1d, 0x9e,
  0xe1, 0xf8, 0x98, 0x11, 0x69, 0xd9, 0x8e, 0x94, 0x9b, 0x1e, 0x87, 0xe9, 0xce, 0x55, 0x28, 0xdf,
  0x8c, 0xa1, 0x89, 0x0d, 0xbf, 0xe6, 0x42, 0x68, 0x41, 0x99, 0x2d, 0x0f, 0xb0, 0x54, 0xbb, 0x16]

/-- Inverse S-box lookup, computed as the index of the byte in the S-box. -/
def invSub (b : Nat) : Nat :=
  (List.range 256).findIdx (fun i => aesSbox.getD i 0 == b)

/-- Multiplication by x in GF(256). -/
def xtime (x : Nat) : Nat :=
  if 128 ≤ x then Nat.xor ((x * 2) % 256) 27 else x * 2

def gmulAux : Nat → Nat → Nat → Nat → Nat
  | 0, _, _, acc => acc
  | k + 1, a, b, acc =>
    gmulAux k (xtime a) (b / 2) (if b % 2 = 1 then Nat.xor acc a else acc)

/-- GF(256) multiplication. -/
def gmul (a b : Nat) : Nat := gmulAux 8 a b 0

def subWord (w : List Nat) : List Nat := w.map (fun b => aesSbox.getD b 0)

def rotWord : List Nat → List Nat
  | a :: rest => rest ++ [a]
  | [] => []

def xorWord (a b : List Nat) : List Nat := List.zipWith Nat.xor a b

def aesRcon : List Nat := [1, 2, 4, 8, 16, 32, 64, 128, 27, 54]

/-- AES-128 key expansion into 44 four-byte words (the only reachable case:
computeObjectKey caps the key at 16 bytes). -/
def aesKeyWords (key : List Nat) : List (List Nat) :=
  (List.range 40).foldl (fun w i =>
    let idx := i + 4
    let temp := w.getD (idx - 1) []
    let temp :=
      if idx % 4 = 0 then
        xorWord (subWord (rotWord temp)) [aesRcon.getD (idx / 4 - 1) 0, 0, 0, 0]
      else temp
    w ++ [xorWord (w.getD (idx - 4) []) temp])
    [key.take 4, (key.drop 4).take 4, (key.drop 8).take 4, (key.drop 12).take 4]

/-- Round key r as 16 bytes in input order. -/
def roundKey (w : List (List Nat)) (r : Nat) : List Nat :=
  w.getD (4 * r) [] ++ w.getD (4 * r + 1) [] ++
    w.getD (4 * r + 2) [] ++ w.getD (4 * r + 3) []

/-- InvShiftRows on the 16 state bytes laid out in input order. -/
def invShiftRows (s : List Nat) : List Nat :=
  [0, 13, 10, 7, 4, 1, 14, 11, 8, 5, 2, 15, 12, 9, 6, 3].map (fun i => s.getD i 0)

def invSubBytes (s : List Nat) : List Nat := s.map invSub

def addRoundKey (s rk : List Nat) : List Nat := List.zipWith Nat.xor s rk

def invMixColumn : List Nat → List Nat
  | [s0, s1, s2, s3] =>
    [Nat.xor (Nat.xor (gmul 14 s0) (gmul 11 s1)) (Nat.xor (gmul 13 s2) (gmul 9 s3)),
     Nat.xor (Nat.xor (gmul 9 s0) (gmul 14 s1)) (Nat.xor (gmul 11 s2) (gmul 13 s3)),
     Nat.xor (Nat.xor (gmul 13 s0) (gmul 9 s1)) (Nat.xor (gmul 14 s2) (gmul 11 s3)),
     Nat.xor (Nat.xor (gmul 11 s0) (gmul 13 s1)) (Nat.xor (gmul 9 s2) (gmul 14 s3))]
  | other => other

def invMixColumns (s : List Nat) : List Nat :=
  invMixColumn (s.take 4) ++ invMixColumn ((s.drop 4).take 4) ++
    invMixColumn ((s.drop 8).take 4) ++ invMixColumn ((s.drop 12).take 4)

/-- AES-128 single-block decryption (FIPS-197 InvCipher). -/
def aesDecBlock (w : List (List Nat)) (ct : List Nat) : List Nat :=
  let s := addRoundKey ct (roundKey w 10)
  let s := (List.range 9).foldl (fun s i =>
    invMixColumns (addRoundKey (invSubBytes (invShiftRows s)) (roundKey w (9 - i)))) s
  addRoundKey (invSubBytes (invShiftRows s)) (roundKey w 0)

def zipXor (a b : List Nat) : List Nat := List.zipWith Nat.xor a b

/-- CBC block chaining for decryption. -/
def cbcDecryptBlocks (w : List (List Nat)) (prev ct : List Nat) : List Nat :=
  if h : ct.length < 16 then []
  else zipXor (aesDecBlock w (ct.take 16)) prev ++
    cbcDecryptBlocks w (ct.take 16) (ct.drop 16)
termination_by ct.length
decreasing_by simp only [List.length_drop]; omega

/-- removePadding from the crypt source: strip PKCS7 padding when the last
byte is a valid count 1..16 and all trailing bytes match it; otherwise pass
the data through unchanged. -/
def removePadding (data : List Nat) : List Nat :=
  if data = [] then data
  else
    let paddingLen := (data.getLast? ).getD 0
    if paddingLen = 0 ∨ paddingLen > 16 ∨ paddingLen > data.length then data
    else if (data.drop (data.length - paddingLen)).all (fun b => b == paddingLen) then
      data.take (data.length - paddingLen)
    else data

/-- decryptAES from the crypt source: data shorter than 16 bytes (no room for
the IV) is an error; otherwise the first 16 bytes are the IV and the rest is
decrypted with AES-CBC under the per-object key, then unpadded. -/
def decryptAES (h : EncryptionHandler) (data : List Nat) (objNum genNum : Int) :
    Except String (List Nat) :=
  if data.length < 16 then
    .error ("encrypted data too short for AES (need at least 16 bytes for IV, got "
      ++ toString data.length ++ ")")
  else
    let key := computeObjectKey h objNum genNum
    if key.length = 16 ∨ key.length = 24 ∨ key.length = 32 then
      .ok (removePadding (cbcDecryptBlocks (aesKeyWords key) (data.take 16) (data.drop 16)))
    else .error "failed to create AES cipher"

/-- Decrypt from the crypt source: empty data passes through before any
dispatch; V of 1 or 2 selects RC4, V of 4 selects AES, anything else errors. -/
def Decrypt (h : EncryptionHandler) (data : List Nat) (objNum genNum : Int) :
    Except String (List Nat) :=
  if data = [] then .ok data
  else if h.v = 1 ∨ h.v = 2 then decryptRC4 h data objNum genNum
  else if h.v = 4 then decryptAES h data objNum genNum
  else .error "unsupported encryption version (only V1, V2, V4 are supported)"

/-- C5: Decrypt returns empty output for empty input whatever the version,
and when V = 4 every nonempty input shorter than 16 bytes (too short to hold
the AES IV) yields an error.  The empty input never reaches the AES branch:
it is answered by the first guard. -/
theorem c5_decrypt_empty_and_short_aes :
    (∀ (h : EncryptionHandler) (objNum genNum : Int),
        Decrypt h [] objNum genNum = Except.ok []) ∧
    (∀ (h : EncryptionHandler) (data : List Nat) (objNum genNum : Int),
        h.v = 4 → data ≠ [] → data.length < 16 →
        ∃ msg, Decrypt h data objNum genNum = Except.error msg) := by
  constructor
  · intro h objNum genNum
    rfl
  · intro h data objNum genNum hv hne hlen
    refine ⟨"encrypted data too short for AES (need at least 16 bytes for IV, got "
      ++ toString data.length ++ ")", ?_⟩
    unfold Decrypt decryptAES
    rw [if_neg hne, if_neg (by omega), if_pos hv, if_pos hlen]

/-- A concrete V4 handler for the C5 witness. -/
def sampleHandlerV4 : EncryptionHandler :=
  ⟨⟨"/Standard", 4, 4, [], [], -1, 128, true⟩, [], [1, 2, 3, 4, 5], 4, 4⟩

/-- C5 witness: the theorem applied at a concrete handler, an empty input and
a concrete 3-byte input. -/
theorem c5_decrypt_witness :
    Decrypt sampleHandlerV4 [] 7 0 = Except.ok [] ∧
    (sampleHandlerV4.v = 4 ∧ ([9, 9, 9] : List Nat) ≠ [] ∧
      ([9, 9, 9] : List Nat).length < 16) ∧
    ∃ msg, Decrypt sampleHandlerV4 [9, 9, 9] 7 0 = Except.error msg := by
  refine ⟨c5_decrypt_empty_and_short_aes.1 sampleHandlerV4 7 0,
    ⟨rfl, by decide, by decide⟩, ?_⟩
  exact c5_decrypt_empty_and_short_aes.2 sampleHandlerV4 [9, 9, 9] 7 0 rfl
    (by decide) (by decide)

/-! ## CMap parser (src/pkg/pdf/cmap.go) -/

/-- hexToInt from cmap.go: big-endian fold of the payload bytes. -/
def hexToInt (h : List Nat) : Nat :=
  h.foldl (fun v b => v * 256 + b) 0

/-- intToHex from cmap.go: the value written big-endian into exactly byteLen
bytes (truncating above 256^byteLen). -/
def intToHex : Nat → Nat → List Nat
  | _, 0 => []
  | val, k + 1 => intToHex (val / 256) k ++ [val % 256]

/-- UTF-16 decoding with surrogate pairs (Go utf16.Decode): a high surrogate
followed by a low one combines, a lone surrogate becomes U+FFFD. -/
def utf16Combine : List Nat → List Nat
  | [] => []
  | [u] => if 0xD800 ≤ u ∧ u < 0xE000 then [0xFFFD] else [u]
  | u :: u2 :: rest =>
    if 0xD800 ≤ u ∧ u < 0xDC00 then
      if 0xDC00 ≤ u2 ∧ u2 < 0xE000 then
        ((u - 0xD800) * 1024 + (u2 - 0xDC00) + 0x10000) :: utf16Combine rest
      else 0xFFFD :: utf16Combine (u2 :: rest)
    else if 0xDC00 ≤ u ∧ u < 0xE000 then 0xFFFD :: utf16Combine (u2 :: rest)
    else u :: utf16Combine (u2 :: rest)

/-- UTF-8 encoding of one code point (Go string conversion of a rune). -/
def utf8EncodeChar (c : Nat) : List Nat :=
  if c < 0x80 then [c]
  else if c < 0x800 then [0xC0 + c / 64, 0x80 + c % 64]
  else if c < 0x10000 then [0xE0 + c / 4096, 0x80 + c / 64 % 64, 0x80 + c % 64]
  else [0xF0 + c / 262144, 0x80 + c / 4096 % 64, 0x80 + c / 64 % 64, 0x80 + c % 64]

def utf8Encode (cs : List Nat) : List Nat := cs.flatMap utf8EncodeChar

/-- Big-endian 16-bit grouping of bytes. -/
def beU16s : List Nat → List Nat
  | b1 :: b2 :: rest => (b1 * 256 + b2) :: beU16s rest
  | _ => []

/-- decodeUTF16BE from cmap.go: odd-length payloads fall back to the raw
bytes, even-length payloads are decoded as UTF-16BE and re-encoded as the
UTF-8 bytes of the resulting Go string. -/
def decodeUTF16BE (b : List Nat) : List Nat :=
  if b.length % 2 ≠ 0 then b
  else utf8Encode (utf16Combine (beU16s b))

/-- The sequential-destination case of parseBFRange (cmap.go lines 140-154):
for i from 0 while startCode+i is at most endCode, map the key
intToHex(startCode+i, len startHex) to decodeUTF16BE of
intToHex(dstCode+i, len dstHex).  Go map assignment is modelled by
prepending, so a later entry shadows an earlier one on lookup. -/
def parseBFRangeSeq (startHex endHex dstHex : List Nat)
    (m : List (List Nat × List Nat)) : List (List Nat × List Nat) :=
  let startCode := hexToInt startHex
  let endCode := hexToInt endHex
  let dstCode := hexToInt dstHex
  if endCode < startCode then m
  else
    (List.range (endCode - startCode + 1)).foldl (fun m i =>
      (intToHex (startCode + i) startHex.length,
        decodeUTF16BE (intToHex (dstCode + i) dstHex.length)) :: m) m

/-- C8 counterexample: the bfrange entry with startHex of one byte 0x41,
endHex 0x41 and the two-byte destination 0x00 0xE9.  The code reconstructs
the destination at the byte length of dstHex (two bytes, giving the UTF-8
bytes 0xC3 0xA9 of U+00E9), while the claim reconstructs it at the byte
length of startHex (one byte, giving the raw-byte fallback 0xE9). -/
theorem c8_counterexample :
    (parseBFRangeSeq [0x41] [0x41] [0x00, 0xE9] []).lookup [0x41] =
      some [0xC3, 0xA9] ∧
    decodeUTF16BE (intToHex (hexToInt [0x00, 0xE9] + 0) ([0x41] : List Nat).length) =
      [0xE9] ∧
    ([0xC3, 0xA9] : List Nat) ≠ [0xE9] := by
  decide

/-- intToHex always produces exactly byteLen bytes. -/
theorem intToHex_length (val k : Nat) : (intToHex val k).length = k := by
  induction k generalizing val with
  | zero => rfl
  | succ n ih => simp [intToHex, ih]

/-- intToHex is injective on values below 256^byteLen. -/
theorem intToHex_injective (k : Nat) :
    ∀ a b, a < 256 ^ k → b < 256 ^ k → intToHex a k = intToHex b k → a = b := by
  induction k with
  | zero =>
    intro a b ha hb _
    simp only [pow_zero, Nat.lt_one_iff] at ha hb
    rw [ha, hb]
  | succ n ih =>
    intro a b ha hb h
    simp only [intToHex] at h
    have hlen : (intToHex (a / 256) n).length = (intToHex (b / 256) n).length := by
      rw [intToHex_length, intToHex_length]
    have := List.append_inj h hlen
    have hdiv : a / 256 = b / 256 := by
      refine ih _ _ ?_ ?_ this.1
      · exact Nat.div_lt_of_lt_mul (by rw [pow_succ] at ha; omega)
      · exact Nat.div_lt_of_lt_mul (by rw [pow_succ] at hb; omega)
    have hmod : a % 256 = b % 256 := by
      have := this.2
      simp only [List.cons.injEq] at this
      exact this.1
    omega

/-- Lookup after a fold that prepends one binding per range element. -/
theorem lookup_foldl_prepend (f g : Nat → List Nat)
    (m : List (List Nat × List Nat)) (n i : Nat) (hi : i < n)
    (hinj : ∀ j, j < n → f j = f i → j = i) :
    ((List.range n).foldl (fun m j => (f j, g j) :: m) m).lookup (f i) =
      some (g i) := by
  induction n generalizing m with
  | zero => omega
  | succ k ih =>
    rw [List.range_succ, List.foldl_append, List.foldl_cons, List.foldl_nil]
    by_cases hik : i = k
    · subst hik
      simp [List.lookup]
    · have hlt : i < k := by
        rcases Nat.lt_succ_iff_lt_or_eq.mp hi with h | h
        · exact h
        · exact absurd h hik
      have hne : (f i == f k) = false := by
        rw [beq_eq_false_iff_ne]
        intro he
        exact hik (hinj k (Nat.lt_succ_self k) he.symm).symm
      simp only [List.lookup, hne]
      exact ih m hlt (fun j hj => hinj j (Nat.lt_succ_of_lt hj))

/-- C8 amended: for every bfrange entry with a HexString destination and
every i with startCode+i at most endCode (range not wrapping the key width),
the code maps the key intToHex(startCode+i, len startHex) — so the key width
equals the byte length of startHex — to intToHex(dstCode+i, len dstHex)
decoded as UTF-16BE: the reconstructed destination byte width equals the byte
length of dstHex, not of startHex. -/
theorem c8_bfrange_sequential (startHex endHex dstHex : List Nat)
    (m : List (List Nat × List Nat)) (i : Nat)
    (hle : hexToInt startHex + i ≤ hexToInt endHex)
    (hfit : hexToInt endHex < 256 ^ startHex.length) :
    (parseBFRangeSeq startHex endHex dstHex m).lookup
        (intToHex (hexToInt startHex + i) startHex.length) =
      some (decodeUTF16BE (intToHex (hexToInt dstHex + i) dstHex.length)) ∧
    (intToHex (hexToInt startHex + i) startHex.length).length =
      startHex.length := by
  refine ⟨?_, intToHex_length _ _⟩
  unfold parseBFRangeSeq
  rw [if_neg (by omega)]
  exact lookup_foldl_prepend
    (fun j => intToHex (hexToInt startHex + j) startHex.length)
    (fun j => decodeUTF16BE (intToHex (hexToInt dstHex + j) dstHex.length))
    m _ i (by omega)
    (fun j hj he => by
      have := intToHex_injective startHex.length
        (hexToInt startHex + j) (hexToInt startHex + i)
        (by omega) (by omega) he
      omega)

/-- C8 amended witness: the bfrange entry mapping the codes 0x20..0x22 to the
destinations 0x0041.. — the code 0x21 (i = 1) maps to the UTF-16BE decoding
of 0x0042, the single byte 0x42, under the one-byte key 0x21. -/
theorem c8_bfrange_sequential_witness :
    (hexToInt [0x20] + 1 ≤ hexToInt [0x22]) ∧
    (hexToInt [0x22] < 256 ^ ([0x20] : List Nat).length) ∧
    (parseBFRangeSeq [0x20] [0x22] [0x00, 0x41] []).lookup
        (intToHex (hexToInt [0x20] + 1) ([0x20] : List Nat).length) =
      some (decodeUTF16BE (intToHex (hexToInt [0x00, 0x41] + 1)
        ([0x00, 0x41] : List Nat).length)) := by
  refine ⟨by decide, by decide, ?_⟩
  exact (c8_bfrange_sequential [0x20] [0x22] [0x00, 0x41] [] 1
    (by decide) (by decide)).1

/-! ## Text extractor (extractor source, the part with image support):
matrices, graphics and text state, and the content operator machine.
Go float64 arithmetic is modelled over the rationals.  The image-recording
side effects (the images list and the XObject resources) are outside this
state projection; the operators that only touch them act as the identity
here. -/

/-- 3x2 affine matrix, row-major a b c d e f with implicit last row 0 0 1. -/
structure M6 where
  m0 : ℚ
  m1 : ℚ
  m2 : ℚ
  m3 : ℚ
  m4 : ℚ
  m5 : ℚ
  deriving DecidableEq

def identityMatrix : M6 := ⟨1, 0, 0, 1, 0, 0⟩

/-- Mult from the extractor source. -/
def M6.mult (a b : M6) : M6 :=
  ⟨a.m0 * b.m0 + a.m1 * b.m2, a.m0 * b.m1 + a.m1 * b.m3,
    a.m2 * b.m0 + a.m3 * b.m2, a.m2 * b.m1 + a.m3 * b.m3,
    a.m4 * b.m0 + a.m5 * b.m2 + b.m4, a.m4 * b.m1 + a.m5 * b.m3 + b.m5⟩

structure GraphicsState where
  ctm : M6
  deriving DecidableEq

/-- Font from the extractor source. -/
structure Font where
  baseFont : String
  cmap : List (List Nat × List Nat)
  encoding : List (Nat × String)
  widths : List (Nat × ℚ)
  missingW : ℚ
  spaceWidth : ℚ
  isCID : Bool
  deriving DecidableEq

/-- TextState from the extractor source. -/
structure TextState where
  font : Option Font
  fontSize : ℚ
  charSpacing : ℚ
  wordSpacing : ℚ
  scale : ℚ
  leading : ℚ
  rise : ℚ
  tm : M6
  tlm : M6
  deriving DecidableEq

def newTextState : TextState :=
  ⟨none, 0, 0, 0, 100, 0, 0, identityMatrix, identityMatrix⟩

/-- The extractor state driven by processOp. -/
structure ExtState where
  gState : GraphicsState
  gStack : List GraphicsState
  textState : TextState
  fonts : List (String × Font)
  lastX : ℚ
  lastY : ℚ
  buffer : List Nat
  deriving DecidableEq

/-- A content-stream operation. -/
structure Operation where
  operator : String
  operands : List Obj

/-- number from the extractor source: non-numbers count as 0. -/
def numberOf (o : Obj) : ℚ :=
  match o with
  | .number n => n
  | _ => 0

def argsToMatrix (args : List Obj) : M6 :=
  ⟨numberOf (args.getD 0 .null), numberOf (args.getD 1 .null),
    numberOf (args.getD 2 .null), numberOf (args.getD 3 .null),
    numberOf (args.getD 4 .null), numberOf (args.getD 5 .null)⟩

/-- glyphToUnicode from the extractor source. -/
def glyphToUnicode : List (String × String) := [
  ("/space", " "),
  ("/exclam", "!"),
  ("/quotedbl", "\""),
  ("/numbersign", "#"),
  ("/dollar", "$"),
  ("/percent", "%"),
  ("/ampersand", "&"),
  ("/quoteright", "'"),
  ("/quotesingle", "'"),
  ("/parenleft", "("),
  ("/parenright", ")"),
  ("/asterisk", "*"),
  ("/plus", "+"),
  ("/comma", ","),
  ("/hyphen", "-"),
  ("/period", "."),
  ("/slash", "/"),
  ("/zero", "0"),
  ("/one", "1"),
  ("/two", "2"),
  ("/three", "3"),
  ("/four", "4"),
  ("/five", "5"),
  ("/six", "6"),
  ("/seven", "7"),
  ("/eight", "8"),
  ("/nine", "9"),
  ("/colon", ":"),
  ("/semicolon", ";"),
  ("/less", "<"),
  ("/equal", "="),
  ("/greater", ">"),
  ("/question", "?"),
  ("/at", "@"),
  ("/A", "A"),
  ("/B", "B"),
  ("/C", "C"),
  ("/D", "D"),
  ("/E", "E"),
  ("/F", "F"),
  ("/G", "G"),
  ("/H", "H"),
  ("/I", "I"),
  ("/J", "J"),
  ("/K", "K"),
  ("/L", "L"),
  ("/M", "M"),
  ("/N", "N"),
  ("/O", "O"),
  ("/P", "P"),
  ("/Q", "Q"),
  ("/R", "R"),
  ("/S", "S"),
  ("/T", "T"),
  ("/U", "U"),
  ("/V", "V"),
  ("/W", "W"),
  ("/X", "X"),
  ("/Y", "Y"),
  ("/Z", "Z"),
  ("/bracketleft", "["),
  ("/backslash", "\\"),
  ("/bracketright", "]"),
  ("/asciicircum", "^"),
  ("/underscore", "_"),
  ("/grave", "`"),
  ("/quoteleft", "`"),
  ("/a", "a"),
  ("/b", "b"),
  ("/c", "c"),
  ("/d", "d"),
  ("/e", "e"),
  ("/f", "f"),
  ("/g", "g"),
  ("/h", "h"),
  ("/i", "i"),
  ("/j", "j"),
  ("/k", "k"),
  ("/l", "l"),
  ("/m", "m"),
  ("/n", "n"),
  ("/o", "o"),
  ("/p", "p"),
  ("/q", "q"),
  ("/r", "r"),
  ("/s", "s"),
  ("/t", "t"),
  ("/u", "u"),
  ("/v", "v"),
  ("/w", "w"),
  ("/x", "x"),
  ("/y", "y"),
  ("/z", "z"),
  ("/braceleft", "\x7b"),
  ("/bar", "|"),
  ("/braceright", "\x7d"),
  ("/asciitilde", "~"),
  ("/fi", "fi"),
  ("/fl", "fl"),
  ("/ff", "ff"),
  ("/ffi", "ffi"),
  ("/ffl", "ffl"),
  ("/st", "st"),
  ("/ct", "ct"),
  ("/IJ", "IJ"),
  ("/ij", "ij"),
  ("/AE", "Æ"),
  ("/ae", "æ"),
  ("/OE", "Œ"),
  ("/oe", "œ"),
  ("/oslash", "ø"),
  ("/Oslash", "Ø"),
  ("/lslash", "ł"),
  ("/Lslash", "Ł"),
  ("/Eth", "Ð"),
  ("/eth", "ð"),
  ("/Thorn", "Þ"),
  ("/thorn", "þ"),
  ("/ssharp", "ß"),
  ("/Scaron", "Š"),
  ("/scaron", "š"),
  ("/Zcaron", "Ž"),
  ("/zcaron", "ž"),
  ("/Ccedilla", "Ç"),
  ("/ccedilla", "ç"),
  ("/minus", "−"),
  ("/multiply", "×"),
  ("/divide", "÷"),
  ("/notequal", "≠"),
  ("/lessequal", "≤"),
  ("/greaterequal", "≥"),
  ("/approxequal", "≈"),
  ("/infinity", "∞"),
  ("/integral", "∫"),
  ("/product", "∏"),
  ("/summation", "∑"),
  ("/radical", "√"),
  ("/partialdiff", "∂"),
  ("/plusminus", "±"),
  ("/therefore", "∴"),
  ("/proportional", "∝"),
  ("/angle", "∠"),
  ("/logicaland", "∧"),
  ("/logicalor", "∨"),
  ("/intersection", "∩"),
  ("/union", "∪"),
  ("/Alpha", "Α"),
  ("/Beta", "Β"),
  ("/Gamma", "Γ"),
  ("/Delta", "Δ"),
  ("/Epsilon", "Ε"),
  ("/Zeta", "Ζ"),
  ("/Eta", "Η"),
  ("/Theta", "Θ"),
  ("/Iota", "Ι"),
  ("/Kappa", "Κ"),
  ("/Lambda", "Λ"),
  ("/Mu", "Μ"),
  ("/Nu", "Ν"),
  ("/Xi", "Ξ"),
  ("/Omicron", "Ο"),
  ("/Pi", "Π"),
  ("/Rho", "Ρ"),
  ("/Sigma", "Σ"),
  ("/Tau", "Τ"),
  ("/Upsilon", "Υ"),
  ("/Phi", "Φ"),
  ("/Chi", "Χ"),
  ("/Psi", "Ψ"),
  ("/Omega", "Ω"),
  ("/alpha", "α"),
  ("/beta", "β"),
  ("/gamma", "γ"),
  ("/delta", "δ"),
  ("/epsilon", "ε"),
  ("/zeta", "ζ"),
  ("/eta", "η"),
  ("/theta", "θ"),
  ("/iota", "ι"),
  ("/kappa", "κ"),
  ("/lambda", "λ"),
  ("/mu", "μ"),
  ("/nu", "ν"),
  ("/xi", "ξ"),
  ("/omicron", "ο"),
  ("/pi", "π"),
  ("/rho", "ρ"),
  ("/sigma", "σ"),
  ("/tau", "τ"),
  ("/upsilon", "υ"),
  ("/phi", "φ"),
  ("/chi", "χ"),
  ("/psi", "ψ"),
  ("/omega", "ω"),
  ("/circledot", "⊙"),
  ("/sun", "☉"),
  ("/venus", "♀"),
  ("/earth", "♁"),
  ("/mars", "♂"),
  ("/jupiter", "♃"),
  ("/saturn", "♄"),
  ("/uranus", "♅"),
  ("/neptune", "♆"),
  ("/pluto", "♇"),
  ("/zero.superior", "⁰"),
  ("/one.superior", "¹"),
  ("/two.superior", "²"),
  ("/three.superior", "³"),
  ("/four.superior", "⁴"),
  ("/five.superior", "⁵"),
  ("/six.superior", "⁶"),
  ("/seven.superior", "⁷"),
  ("/eight.superior", "⁸"),
  ("/nine.superior", "⁹"),
  ("/plus.superior", "⁺"),
  ("/minus.superior", "⁻"),
  ("/zero.inferior", "₀"),
  ("/one.inferior", "₁"),
  ("/two.inferior", "₂"),
  ("/three.inferior", "₃"),
  ("/four.inferior", "₄"),
  ("/five.inferior", "₅"),
  ("/six.inferior", "₆"),
  ("/seven.inferior", "₇"),
  ("/eight.inferior", "₈"),
  ("/nine.inferior", "₉"),
  ("/plus.inferior", "₊"),
  ("/minus.inferior", "₋"),
  ("/zerowidthspace", "\u200B"),
  ("/zerowidthnonjoiner", "\u200C"),
  ("/zerowidthjoiner", "\u200D")]

def isPrintableASCII (b : Nat) : Bool := 0x20 ≤ b ∧ b ≤ 0x7E

def isWhitespaceChar (b : Nat) : Bool := b == 0x09 || b == 0x0A || b == 0x0D

/-- filterControlChars from the extractor source. -/
def filterControlChars (raw : List Nat) : List Nat :=
  raw.filter (fun b => isPrintableASCII b || isWhitespaceChar b)

/-- The UTF-8 bytes of a Lean string (Go strings are byte sequences). -/
def strUTF8 (s : String) : List Nat :=
  s.data.flatMap (fun c => utf8EncodeChar c.toNat)

/-- The CMap walk of handleText: try a 2-byte key, then a 1-byte key, then
fall back to the raw byte. -/
def cmapDecode (m : List (List Nat × List Nat)) : List Nat → List Nat
  | [] => []
  | [b1] =>
    match m.lookup [b1] with
    | some v => v
    | none => [b1]
  | b1 :: b2 :: rest2 =>
    match m.lookup [b1, b2] with
    | some v => v ++ cmapDecode m rest2
    | none =>
      match m.lookup [b1] with
      | some v => v ++ cmapDecode m (b2 :: rest2)
      | none => b1 :: cmapDecode m (b2 :: rest2)

/-- The /Encoding branch of handleText for one byte: glyph name to Unicode,
then the two-character name fallback, then the raw byte. -/
def encodingDecodeByte (enc : List (Nat × String)) (b : Nat) : List Nat :=
  match enc.lookup b with
  | some glyphName =>
    match glyphToUnicode.lookup glyphName with
    | some u => strUTF8 u
    | none =>
      let gbytes := strUTF8 glyphName
      if gbytes.length = 2 ∧ gbytes.headD 0 = 47 then [gbytes.getD 1 0]
      else [b]
  | none => [b]

/-- The three decoding fallbacks of handleText. -/
def decodeText (font : Option Font) (raw : List Nat) : List Nat :=
  match font with
  | some f =>
    if f.cmap ≠ [] then cmapDecode f.cmap raw
    else if f.encoding ≠ [] then raw.flatMap (encodingDecodeByte f.encoding)
    else filterControlChars raw
  | none => filterControlChars raw

def widthOfByte (f : Font) (b : Nat) : ℚ :=
  match f.widths.lookup b with
  | some v => v
  | none => f.missingW

/-- The advance computation of handleText: real metrics when Widths is
nonempty, else the half-em heuristic. -/
def totalWidthOf (ts : TextState) (raw decoded : List Nat) : ℚ :=
  match ts.font with
  | some f =>
    if f.widths ≠ [] then
      ((raw.map (widthOfByte f)).sum / 1000 * ts.fontSize
          + (raw.length : ℚ) * ts.charSpacing
          + (decoded.count 32 : ℚ) * ts.wordSpacing)
        * (ts.scale / 100)
    else (decoded.length : ℚ) * ts.fontSize * (1 / 2) * (ts.scale / 100)
  | none => (decoded.length : ℚ) * ts.fontSize * (1 / 2) * (ts.scale / 100)

/-- space_width_user of handleText: the font space width scaled to user
space, 0 without a font. -/
def spaceWidthOf (ts : TextState) : ℚ :=
  match ts.font with
  | some f => f.spaceWidth / 1000 * ts.fontSize * (ts.scale / 100)
  | none => 0

/-- The threshold of handleText: size times 0.2, overwritten by half the
space width whenever the space width is positive. -/
def thresholdOf (ts : TextState) : ℚ :=
  if spaceWidthOf ts > 0 then spaceWidthOf ts * (1 / 2)
  else ts.fontSize * (1 / 5)

/-- The line/word break bytes written by handleText before the decoded text:
a newline on a vertical jump with nonempty output, else a single space on a
horizontal gap over the threshold when the output neither is empty nor ends
in newline or space. -/
def breakBytes (st : ExtState) (x y : ℚ) : List Nat :=
  if |y - st.lastY| > st.textState.fontSize * (1 / 2) then
    if st.buffer ≠ [] then [10] else []
  else if x - st.lastX > thresholdOf st.textState ∧ st.buffer ≠ [] ∧
      st.buffer.getLast? ≠ some 10 ∧ st.buffer.getLast? ≠ some 32 then [32]
  else []

/-- handleText on the raw bytes: break detection, decoding, advance. -/
def handleTextBytes (st : ExtState) (raw : List Nat) : ExtState :=
  let fm := st.textState.tm.mult st.gState.ctm
  let x := fm.m4
  let y := fm.m5
  let brk := breakBytes st x y
  let decoded := decodeText st.textState.font raw
  let total := totalWidthOf st.textState raw decoded
  { st with
    buffer := st.buffer ++ brk ++ decoded
    lastX := x + total
    lastY := y
    textState := { st.textState with
      tm := { st.textState.tm with
        m4 := st.textState.tm.m4 + total * st.textState.tm.m0
        m5 := st.textState.tm.m5 + total * st.textState.tm.m1 } } }

/-- handleText from the extractor source: only literal and hex strings are
shown, everything else returns unchanged. -/
def handleText (st : ExtState) (o : Obj) : ExtState :=
  match o with
  | .str raw => handleTextBytes st raw
  | .hexStr raw => handleTextBytes st raw
  | _ => st

/-- The T* body (also invoked by the quote operators). -/
def doTstar (st : ExtState) : ExtState :=
  let m : M6 := ⟨1, 0, 0, 1, 0, -st.textState.leading⟩
  let tlm := m.mult st.textState.tlm
  { st with textState := { st.textState with tlm := tlm, tm := tlm } }

/-- The Tj body: show the first operand when present. -/
def doTj (st : ExtState) (operands : List Obj) : ExtState :=
  if operands.length > 0 then handleText st (operands.getD 0 .null) else st

/-- One TJ array element: numbers shift the text matrix, strings are shown. -/
def doTJItem (st : ExtState) (o : Obj) : ExtState :=
  match o with
  | .number n =>
    let shift := -n / 1000 * st.textState.fontSize * (st.textState.scale / 100)
    { st with textState := { st.textState with
        tm := { st.textState.tm with
          m4 := st.textState.tm.m4 + shift * st.textState.tm.m0
          m5 := st.textState.tm.m5 + shift * st.textState.tm.m1 } } }
  | _ => handleText st o

/-- processOp from the extractor source (the Go switch as an if chain).
Unknown operators are ignored; Do and the inline-image operator only touch
the image list, which is outside this state. -/
def processOp (st : ExtState) (op : Operation) : ExtState :=
  if op.operator = "q" then
    { st with gStack := st.gStack ++ [st.gState] }
  else if op.operator = "Q" then
    match st.gStack.getLast? with
    | some g => { st with gState := g, gStack := st.gStack.dropLast }
    | none => st
  else if op.operator = "cm" then
    if op.operands.length = 6 then
      { st with gState := ⟨(argsToMatrix op.operands).mult st.gState.ctm⟩ }
    else st
  else if op.operator = "BT" then
    { st with textState :=
        { st.textState with tm := identityMatrix, tlm := identityMatrix } }
  else if op.operator = "Tc" then
    { st with textState :=
        { st.textState with charSpacing := numberOf (op.operands.getD 0 .null) } }
  else if op.operator = "Tw" then
    { st with textState :=
        { st.textState with wordSpacing := numberOf (op.operands.getD 0 .null) } }
  else if op.operator = "Tz" then
    { st with textState :=
        { st.textState with scale := numberOf (op.operands.getD 0 .null) } }
  else if op.operator = "TL" then
    { st with textState :=
        { st.textState with leading := numberOf (op.operands.getD 0 .null) } }
  else if op.operator = "Tf" then
    let st1 :=
      match op.operands.getD 0 .null with
      | .name n =>
        match st.fonts.lookup n with
        | some f => { st with textState := { st.textState with font := some f } }
        | none => st
      | _ => st
    { st1 with textState :=
        { st1.textState with fontSize := numberOf (op.operands.getD 1 .null) } }
  else if op.operator = "Td" then
    let tx := numberOf (op.operands.getD 0 .null)
    let ty := numberOf (op.operands.getD 1 .null)
    let m : M6 := ⟨1, 0, 0, 1, tx, ty⟩
    let tlm := m.mult st.textState.tlm
    { st with textState := { st.textState with tlm := tlm, tm := tlm } }
  else if op.operator = "TD" then
    let tx := numberOf (op.operands.getD 0 .null)
    let ty := numberOf (op.operands.getD 1 .null)
    let m : M6 := ⟨1, 0, 0, 1, tx, ty⟩
    let tlm := m.mult st.textState.tlm
    { st with textState :=
        { st.textState with leading := -ty, tlm := tlm, tm := tlm } }
  else if op.operator = "Tm" then
    if op.operands.length = 6 then
      let m := argsToMatrix op.operands
      { st with textState := { st.textState with tm := m, tlm := m } }
    else st
  else if op.operator = "T*" then doTstar st
  else if op.operator = "Tj" then doTj st op.operands
  else if op.operator = "TJ" then
    match op.operands.getD 0 .null with
    | .array arr => arr.foldl doTJItem st
    | _ => st
  else if op.operator = "'" then doTj (doTstar st) op.operands
  else if op.operator = "\"" then
    let st1 := { st with textState := { st.textState with
        wordSpacing := numberOf (op.operands.getD 0 .null),
        charSpacing := numberOf (op.operands.getD 1 .null) } }
    doTj (doTstar st1) (op.operands.drop 2)
  else st

/-- C9: processing q immediately followed by Q restores the whole extractor
state (graphics state, stack, and everything else untouched), and processing
Q on an empty graphics-state stack is a no-op. -/
theorem c9_q_then_Q_restores :
    (∀ st : ExtState,
        processOp (processOp st ⟨"q", []⟩) ⟨"Q", []⟩ = st) ∧
    (∀ st : ExtState, st.gStack = [] → processOp st ⟨"Q", []⟩ = st) := by
  constructor
  · intro st
    simp [processOp, List.getLast?_concat, List.dropLast_concat]
  · intro st h
    simp [processOp, h]

/-- C9 witness: a concrete state with an empty stack, where Q is a no-op and
the q-then-Q round trip returns it unchanged. -/
theorem c9_q_then_Q_restores_witness :
    (⟨⟨identityMatrix⟩, [], newTextState, [], 0, 0, []⟩ : ExtState).gStack = [] ∧
    processOp (⟨⟨identityMatrix⟩, [], newTextState, [], 0, 0, []⟩ : ExtState)
      ⟨"Q", []⟩ = ⟨⟨identityMatrix⟩, [], newTextState, [], 0, 0, []⟩ :=
  ⟨rfl, c9_q_then_Q_restores.2 _ rfl⟩

/-- The word-break threshold exactly as the claim words it: the maximum of
size times 0.2 and half the user-space space width. -/
def specThresholdC2 (ts : TextState) : ℚ :=
  max (ts.fontSize * (1 / 5)) (spaceWidthOf ts * (1 / 2))

/-- A font with the default space width 250 and no metrics, as loadFont
produces for a CID font without /FirstChar. -/
def c2Font : Font := ⟨"/F1", [], [], [], 0, 250, true⟩

/-- A state about to show text at x = 3/2 with font size 10 and scale 100,
output so far the two bytes of Hi. -/
def c2State : ExtState :=
  { gState := ⟨identityMatrix⟩,
    gStack := [],
    textState := { newTextState with
                     font := some c2Font,
                     fontSize := 10,
                     tm := ⟨1, 0, 0, 1, 3 / 2, 0⟩ },
    fonts := [],
    lastX := 0,
    lastY := 0,
    buffer := [72, 105] }

/-- C2 counterexample: with size 10, scale 100 and space width 250 the code
threshold is 5/4 (half the user-space space width), while the claim threshold
max(size/5, space/2) is 2; at gap 3/2 the code emits a space even though the
gap does not exceed the claim threshold. -/
theorem c2_counterexample :
    thresholdOf c2State.textState = 5 / 4 ∧
    specThresholdC2 c2State.textState = 2 ∧
    (5 / 4 : ℚ) ≠ 2 ∧
    (handleTextBytes c2State [72]).buffer = [72, 105, 32, 72] ∧
    ¬((c2State.textState.tm.mult c2State.gState.ctm).m4 - c2State.lastX >
        specThresholdC2 c2State.textState) := by
  have hsw : spaceWidthOf c2State.textState = 5 / 2 := by
    norm_num [spaceWidthOf, c2State, c2Font, newTextState]
  have hth : thresholdOf c2State.textState = 5 / 4 := by
    rw [thresholdOf, hsw]
    norm_num
  have hspec : specThresholdC2 c2State.textState = 2 := by
    rw [specThresholdC2, hsw]
    norm_num [c2State, newTextState]
  have hx : (c2State.textState.tm.mult c2State.gState.ctm).m4 = 3 / 2 := by
    norm_num [c2State, c2Font, newTextState, M6.mult, identityMatrix]
  have hy : (c2State.textState.tm.mult c2State.gState.ctm).m5 = 0 := by
    norm_num [c2State, c2Font, newTextState, M6.mult, identityMatrix]
  refine ⟨hth, hspec, by norm_num, ?_, ?_⟩
  · have hbrk : breakBytes c2State (3 / 2) 0 = [32] := by
      rw [breakBytes, hth]
      rw [if_neg (by norm_num [c2State, newTextState])]
      rw [if_pos ⟨by norm_num [c2State], by decide, by decide, by decide⟩]
    show (c2State.buffer ++ breakBytes c2State
        ((c2State.textState.tm.mult c2State.gState.ctm).m4)
        ((c2State.textState.tm.mult c2State.gState.ctm).m5) ++
        decodeText c2State.textState.font [72]) = [72, 105, 32, 72]
    rw [hx, hy, hbrk]
    norm_num [c2State, c2Font, newTextState, decodeText, filterControlChars,
      isPrintableASCII, isWhitespaceChar]
  · rw [hx, hspec]
    norm_num [c2State]

/-- C2 amended: the gap threshold equals half the user-space space width
when that width is positive and size times 0.2 otherwise (not the maximum of
the two), and a single space is emitted into the output exactly when the
line-break branch is not taken, the gap exceeds this threshold, and the
output is nonempty with a last byte that is neither newline nor space. -/
theorem c2_threshold_and_space_emission (st : ExtState) (raw : List Nat)
    (x y : ℚ) :
    (breakBytes st x y = [32] ↔
      ¬(|y - st.lastY| > st.textState.fontSize * (1 / 2)) ∧
      x - st.lastX >
        (if spaceWidthOf st.textState > 0 then spaceWidthOf st.textState * (1 / 2)
          else st.textState.fontSize * (1 / 5)) ∧
      st.buffer ≠ [] ∧ st.buffer.getLast? ≠ some 10 ∧
      st.buffer.getLast? ≠ some 32) ∧
    (handleTextBytes st raw).buffer =
      st.buffer ++
        breakBytes st ((st.textState.tm.mult st.gState.ctm).m4)
          ((st.textState.tm.mult st.gState.ctm).m5) ++
        decodeText st.textState.font raw := by
  constructor
  · unfold breakBytes thresholdOf
    split_ifs with h1 h2 h3 <;> simp_all
  · rfl

/-! ## GetPage / findPage (reader source lines around GetPage and findPage):
the page tree walked by findPage, with indirect references already resolved.
A node is a /Page leaf dictionary or a /Pages node with kids and an optional
/Count entry. -/

inductive PageNode where
  | page (d : List (String × Obj))
  | pages (count : Option Int) (kids : List PageNode)

/-- The /Count entry the kid loop of findPage reads from a kid dictionary
(a /Page leaf has none). -/
def kidCount : PageNode → Option Int
  | .page _ => none
  | .pages c _ => c

mutual

/-- findPage from the reader source: a /Page leaf is returned when the index
reaches 0 (and decrements it otherwise); a /Pages node walks its kids. -/
def findPageT : PageNode → Int → Option (List (String × Obj)) × Int
  | .page d, t => if t = 0 then (some d, t) else (none, t - 1)
  | .pages _ kids, t => findPageKids kids t

/-- The kid loop of findPage: with a /Count and index below it, descend
(continuing on a nil result); with a /Count not above the index, skip the
subtree and subtract the count; without a /Count, always descend. -/
def findPageKids : List PageNode → Int → Option (List (String × Obj)) × Int
  | [], t => (none, t)
  | kid :: rest, t =>
    match kidCount kid with
    | some c =>
      if t < c then
        match findPageT kid t with
        | (some d, t2) => (some d, t2)
        | (none, t2) => findPageKids rest t2
      else findPageKids rest (t - c)
    | none =>
      match findPageT kid t with
      | (some d, t2) => (some d, t2)
      | (none, t2) => findPageKids rest t2

end

mutual

/-- Number of /Page leaves of a tree. -/
def leavesT : PageNode → Nat
  | .page _ => 1
  | .pages _ kids => leavesKids kids

def leavesKids : List PageNode → Nat
  | [] => 0
  | k :: rest => leavesT k + leavesKids rest

end

mutual

/-- Well-formed page tree: every present /Count states the number of /Page
leaves below that node, as the PDF format requires. -/
def wfT : PageNode → Prop
  | .page _ => True
  | .pages c kids => (∀ n, c = some n → n = (leavesKids kids : Int)) ∧ wfKids kids

def wfKids : List PageNode → Prop
  | [] => True
  | k :: rest => wfT k ∧ wfKids rest

end

/-- GetPage from the reader source, on the resolved page tree: delegate to
findPage and pair its result with a nil error. -/
def getPageT (root : PageNode) (pageIndex : Int) :
    Except String (Option (List (String × Obj))) :=
  .ok (findPageT root pageIndex).1

/-- On a well-formed tree, an index at least the leaf count walks the whole
tree without a hit: findPage returns nil and leaves the index decremented by
the leaf count.  Strong induction on the node size. -/
theorem findPage_skips (n : Nat) :
    (∀ t : PageNode, sizeOf t ≤ n → wfT t → ∀ idx : Int,
        (leavesT t : Int) ≤ idx →
        findPageT t idx = (none, idx - leavesT t)) ∧
    (∀ ks : List PageNode, sizeOf ks ≤ n → wfKids ks → ∀ idx : Int,
        (leavesKids ks : Int) ≤ idx →
        findPageKids ks idx = (none, idx - leavesKids ks)) := by
  induction n with
  | zero =>
    constructor
    · intro t hsz
      rcases t with d | ⟨c, kids⟩ <;> simp at hsz
    · intro ks hsz
      rcases ks with _ | ⟨k, rest⟩ <;> simp at hsz <;> omega
  | succ m ih =>
    constructor
    · intro t hsz hwf idx hle
      rcases t with d | ⟨c, kids⟩
      · rw [findPageT]
        rw [leavesT] at hle ⊢
        rw [if_neg (by omega)]
        norm_num
      · rw [findPageT]
        rw [leavesT] at hle ⊢
        rw [wfT] at hwf
        refine ih.2 kids ?_ hwf.2 idx hle
        have : sizeOf (PageNode.pages c kids) = 1 + sizeOf c + sizeOf kids := by
          simp
        omega
    · intro ks hsz hwf idx hle
      rcases ks with _ | ⟨k, rest⟩
      · rw [findPageKids]
        rw [leavesKids] at hle ⊢
        simp
      · rw [findPageKids]
        rw [leavesKids] at hle ⊢
        rw [wfKids] at hwf
        have hszk : sizeOf k ≤ m ∧ sizeOf rest ≤ m := by
          have : sizeOf (k :: rest) = 1 + sizeOf k + sizeOf rest := by simp
          omega
        have hkid : findPageT k idx = (none, idx - leavesT k) :=
          ih.1 k hszk.1 hwf.1 idx (by push_cast at hle ⊢; omega)
        have hrest : ∀ j : Int, (leavesKids rest : Int) ≤ j →
            findPageKids rest j = (none, j - leavesKids rest) :=
          fun j hj => ih.2 rest hszk.2 hwf.2 j hj
        have hfin : idx - (leavesT k : Int) - (leavesKids rest : Int) =
            idx - ((leavesT k + leavesKids rest : Nat) : Int) := by
          push_cast
          ring
        split
        next c hc =>
          have hck : c = (leavesT k : Int) := by
            rcases k with d | ⟨ck, kids⟩
            · rw [kidCount] at hc
              cases hc
            · rw [kidCount] at hc
              have hw1 := hwf.1
              rw [wfT] at hw1
              rw [leavesT]
              exact hw1.1 c (by rw [hc])
          rw [if_neg (by rw [hck]; push_cast at hle ⊢; omega)]
          rw [hrest (idx - c) (by rw [hck]; push_cast at hle ⊢; omega)]
          rw [hck, hfin]
        next hc =>
          rw [hkid]
          show findPageKids rest (idx - (leavesT k : Int)) =
            (none, idx - ((leavesT k + leavesKids rest : Nat) : Int))
          rw [hrest (idx - leavesT k) (by push_cast at hle ⊢; omega)]
          rw [hfin]

/-- C10: for every page index at least the number of /Page leaves reachable
in a well-formed page tree, GetPage returns a nil dictionary together with a
nil error: the out-of-range case is not reported as an error. -/
theorem c10_getPage_out_of_range (root : PageNode) (pageIndex : Int)
    (hwf : wfT root) (hge : (leavesT root : Int) ≤ pageIndex) :
    getPageT root pageIndex = .ok none := by
  unfold getPageT
  rw [(findPage_skips (sizeOf root)).1 root le_rfl hwf pageIndex hge]

/-- C10 witness: a one-leaf tree asked for page index 3 yields nil page and
nil error. -/
theorem c10_getPage_out_of_range_witness :
    wfT (PageNode.pages none [PageNode.page [("/Type", Obj.name "/Page")]]) ∧
    (leavesT (PageNode.pages none [PageNode.page [("/Type", Obj.name "/Page")]]) : Int) ≤ 3 ∧
    getPageT (PageNode.pages none [PageNode.page [("/Type", Obj.name "/Page")]]) 3 =
      .ok none := by
  have hwf : wfT (PageNode.pages none [PageNode.page [("/Type", Obj.name "/Page")]]) := by
    rw [wfT]
    constructor
    · intro n h
      cases h
    · rw [wfKids]
      constructor
      · rw [wfT]
        trivial
      · rw [wfKids]
        trivial
  have hle : (leavesT (PageNode.pages none
      [PageNode.page [("/Type", Obj.name "/Page")]]) : Int) ≤ 3 := by
    rw [leavesT, leavesKids, leavesT, leavesKids]
    norm_num
  exact ⟨hwf, hle, c10_getPage_out_of_range _ 3 hwf hle⟩

end PdfLoader
